import Mathlib

/-!
Shallow embedding of the top-items reconciliation pipeline of the
spotify-themes-analyser app API, together with proofs about it.

The embedded functions mirror, definition by definition:
  - TopItemsProcessor in src/api/services/top_items_processor.py
    (get_collection_dates, _format_position_change,
    _add_position_changes_to_db_data, _enrich_db_data_with_spotify_data,
    _get_top_items);
  - calculate_position_changes and format_position_change in
    src/api/routers/data/routes/me.py;
  - MemoryStore.store_top_items in src/api/services/memory_store.py.

Pandas dataframe cells are modelled by the type PdVal (a rational or NaN),
since the pipeline only ever subtracts cells and compares them with zero.
-/

namespace SpotifyThemes

/-- Classification of an item's rank movement, mirroring the UP, DOWN and NEW members
of the PositionChange enum in api/data_structures/models.py. The Python pipeline uses
the plain value None for "no visible change"; that is modelled as Option.none at the
use sites. -/
inductive PositionChange where
  | up
  | down
  | new
deriving DecidableEq, Repr

/-- Value of a pandas cell in a merged frame: either a real number (modelled as a
rational, which covers the integer positions and the float percentages the code uses)
or NaN, which pandas inserts for the columns of an unmatched row in a merge and which
propagates through subtraction. -/
inductive PdVal where
  | nan
  | num (q : ℚ)
deriving DecidableEq, Repr

/-- Subtraction of rationals written through mkRat so that the kernel can evaluate it
on concrete inputs (the library subtraction on ℚ is sealed); ratSub_eq below proves it
equal to ordinary subtraction. -/
def ratSub (a b : ℚ) : ℚ :=
  mkRat (a.num * (b.den : ℤ) - b.num * (a.den : ℤ)) (a.den * b.den)

theorem ratSub_eq (a b : ℚ) : ratSub a b = a - b := by
  unfold ratSub
  rw [Rat.mkRat_eq_div]
  conv_rhs => rw [← Rat.num_div_den a, ← Rat.num_div_den b]
  rw [div_sub_div _ _ (by positivity) (by positivity)]
  push_cast
  ring_nf

/-- Subtraction on pandas cells: NaN propagates, as in IEEE float subtraction used by
the position_change column computation. -/
def PdVal.sub : PdVal → PdVal → PdVal
  | PdVal.num a, PdVal.num b => PdVal.num (ratSub a b)
  | _, _ => PdVal.nan

/-- Test of a pandas cell being strictly below zero; false for NaN (IEEE comparisons
with NaN are false). -/
def PdVal.ltZero : PdVal → Bool
  | PdVal.num a => decide (a < 0)
  | PdVal.nan => false

/-- Test of a pandas cell being strictly above zero; false for NaN. -/
def PdVal.gtZero : PdVal → Bool
  | PdVal.num a => decide (0 < a)
  | PdVal.nan => false

/-- Test of a pandas cell being equal to zero; false for NaN. -/
def PdVal.eqZero : PdVal → Bool
  | PdVal.num a => decide (a = 0)
  | PdVal.nan => false

/-- Model of TopItemsProcessor._format_position_change in
api/services/top_items_processor.py (textually identical to format_position_change in
api/routers/data/routes/me.py): an if/elif chain on the float delta — DOWN when the
value is below zero, UP when above, None when equal to zero, and NEW on the remaining
fall-through branch, which a float reaches exactly when it is NaN. -/
def format_position_change (v : PdVal) : Option PositionChange :=
  if v.ltZero then some PositionChange.down
  else if v.gtZero then some PositionChange.up
  else if v.eqZero then none
  else some PositionChange.new

/-- Row of a stored snapshot as fed to the position-change computation: the join key
(the item_type-qualified id column) and the numeric comparison field (position for
artists and tracks, count or percentage for genres and emotions). Other columns are
carried along by the real code but never inspected by the join, the delta or the sort,
so they are not modelled. -/
structure SnapshotEntry where
  id : String
  metric : ℚ
deriving DecidableEq, Repr

/-- Row of the merged frame produced by _add_position_changes_to_db_data: the join key,
the latest comparison field, the previous comparison field (NaN when the id was absent
from the previous frame) and the formatted position_change column. -/
structure MergedRow where
  id : String
  metric : ℚ
  metric_prev : PdVal
  position_change : Option PositionChange
deriving DecidableEq, Repr

/-- Previous-side values joined to one latest row by a pandas left merge: the
comparison-field values of all matching previous rows in order, or a single NaN when
there is no match. -/
def prevMatches (previous : List SnapshotEntry) (l : SnapshotEntry) : List PdVal :=
  match (previous.filter (fun p => p.id == l.id)).map (fun p => PdVal.num p.metric) with
  | [] => [PdVal.nan]
  | ms => ms

/-- Merged row built from one latest row and the previous-side comparison value joined
to it, with the delta column already formatted. -/
def mkMergedRow (l : SnapshotEntry) (mp : PdVal) : MergedRow :=
  { id := l.id, metric := l.metric, metric_prev := mp,
    position_change := format_position_change (PdVal.sub mp (PdVal.num l.metric)) }

/-- Model of TopItemsProcessor._add_position_changes_to_db_data in
api/services/top_items_processor.py: left-merge the latest frame with the previous
frame on the id column (each latest row is joined to every matching previous row, or
to NaN columns when unmatched), set position_change to the formatted value of
(previous comparison field minus latest comparison field), then sort by the latest
comparison field descending (sort_values with ascending=False; the sort is modelled by
a stable sort, which fixes one permutation among the tie orderings pandas leaves
unspecified — positions are unique in practice, so ties do not arise there). -/
def add_position_changes_to_db_data (latest previous : List SnapshotEntry) :
    List MergedRow :=
  let merged := latest.flatMap (fun l => (prevMatches previous l).map (mkMergedRow l))
  merged.insertionSort (fun a b => b.metric ≤ a.metric)

/-- Row of the merged frame produced by the router variant of the computation: both
comparison-field columns can be NaN (the latest one is NaN for ids only present in the
previous frame), and the raw delta column is kept unformatted. -/
structure OuterRow where
  id : String
  metric : PdVal
  metric_prev : PdVal
  position_change : PdVal
deriving DecidableEq, Repr

/-- Descending comparison on the latest comparison field with NaN placed last,
matching sort_values with ascending=False and the default na_position of last. -/
def descNanLast (a b : OuterRow) : Bool :=
  match a.metric, b.metric with
  | PdVal.num x, PdVal.num y => decide (y ≤ x)
  | PdVal.num _, PdVal.nan => true
  | PdVal.nan, PdVal.num _ => false
  | PdVal.nan, PdVal.nan => true

/-- Model of calculate_position_changes in api/routers/data/routes/me.py: an OUTER
merge of latest with previous on the id column. In contrast with the left merge of
TopItemsProcessor._add_position_changes_to_db_data, ids that occur only in the
previous frame are kept as rows with NaN in the latest-side columns, so their raw
delta is also NaN; the delta column is not formatted here (the routes format it
later). Rows are modelled latest-side first and previous-only after, then sorted by
the latest comparison field descending with NaN last; the statements below depend
only on which ids occur in the result. -/
def calculate_position_changes (latest previous : List SnapshotEntry) : List OuterRow :=
  let leftRows := latest.flatMap (fun l =>
    (prevMatches previous l).map (fun mp =>
      ({ id := l.id, metric := PdVal.num l.metric, metric_prev := mp,
         position_change := PdVal.sub mp (PdVal.num l.metric) } : OuterRow)))
  let latestIds := latest.map (fun e => e.id)
  let rightRows := (previous.filter (fun p => !latestIds.contains p.id)).map (fun p =>
    ({ id := p.id, metric := PdVal.nan, metric_prev := PdVal.num p.metric,
       position_change := PdVal.nan } : OuterRow))
  (leftRows ++ rightRows).insertionSort (fun a b => descNanLast a b = true)

/-- Record of the orchestrator's db_items_data list: the join key, the comparison
metric (which is the position column for the item types that get enriched) and the
position_change column. A record built straight from a snapshot dump has no
position_change column, which downstream assembly renders as null, so the absent
column is modelled as none. Remaining columns are carried along by the real code but
never inspected. -/
structure TopRecord where
  id : String
  metric : ℚ
  position_change : Option PositionChange
deriving DecidableEq, Repr

/-- Metadata record returned by the batched catalog fetch
(spotify_data_service.get_several_items_by_ids); the name field stands for the
metadata payload, which the pipeline never inspects. -/
structure SpotifyItem where
  id : String
  name : String
deriving DecidableEq, Repr

/-- Merged dict built by the enrichment loop for one fetched item:
full_data is the union of the metadata fields and the db-row fields. -/
structure EnrichedRecord where
  item : SpotifyItem
  db : TopRecord
deriving DecidableEq, Repr

/-- Lookup in the comprehension-built Python dict mapping each db row's id to the row;
with duplicate ids the later insertion wins, hence the first matching row of the
reversed list. -/
def dictLookup (db_data : List TopRecord) (i : String) : Option TopRecord :=
  db_data.reverse.find? (fun r => r.id == i)

/-- Iteration of the enrichment loop in
TopItemsProcessor._enrich_db_data_with_spotify_data: walk the FETCHED items in order,
look each one's id up in the dict built from db_data, and either extend the output or
stop with a KeyError. A fetched id missing from db_data raises; a db id missing from
the fetch is simply never visited. -/
def enrichLookup (db_data : List TopRecord) :
    List SpotifyItem → Except String (List EnrichedRecord)
  | [] => Except.ok []
  | it :: rest =>
    match dictLookup db_data it.id with
    | some r =>
      match enrichLookup db_data rest with
      | Except.ok rows => Except.ok ({ item := it, db := r } :: rows)
      | Except.error e => Except.error e
    | none => Except.error ("KeyError: " ++ it.id)

/-- Model of TopItemsProcessor._enrich_db_data_with_spotify_data in
api/services/top_items_processor.py: build the merged records by walking the fetch
result, then sort ascending by the position column with Python's stable list.sort. At
every call site that enriches (artists and tracks) the comparison metric is the
position column, so TopRecord.metric models that sort key. -/
def enrich_db_data_with_spotify_data (db_data : List TopRecord)
    (spotify_items : List SpotifyItem) : Except String (List EnrichedRecord) :=
  match enrichLookup db_data spotify_items with
  | Except.ok rows =>
      Except.ok (rows.insertionSort (fun a b => a.db.metric ≤ b.db.metric))
  | Except.error e => Except.error e

/-- Assembled top item of the final response: ranking fields plus the change
classification, as in the TopArtist, TopTrack, TopGenre and TopEmotion models. The
metadata fields carried by the enriched records do not affect any statement below. -/
structure TopItem where
  id : String
  metric : ℚ
  position_change : Option PositionChange
deriving DecidableEq, Repr

/-- Modelled from the spec: create_top_items_from_data is imported from
api/data_structures/models.py by top_items_processor.py and memory_store.py but is not
defined anywhere under src/. Following the spec's wire-level response shape for a
ranked item (position_change of up, down, new or null) and orchestrator step 3 (build
the response directly from latest with no change classification), it is modelled as
turning each record into a top item in order, keeping the ranking fields and
rendering a missing change classification as null. -/
def create_top_items_from_data (data : List TopRecord) : List TopItem :=
  data.map (fun r => { id := r.id, metric := r.metric,
                       position_change := r.position_change })

/-- Projection of a merged row to an orchestrator record. -/
def mergedRecord (m : MergedRow) : TopRecord :=
  { id := m.id, metric := m.metric, position_change := m.position_change }

/-- Record for a latest-snapshot row dumped directly (model_dump), which carries no
position_change column. -/
def dumpRecord (e : SnapshotEntry) : TopRecord :=
  { id := e.id, metric := e.metric, position_change := none }

/-- Terminal states of one _get_top_items call. -/
inductive PipelineResult where
  | defaultTop (items : List SpotifyItem)
  | assembled (items : List TopItem)
  | fetchError (msg : String)
deriving DecidableEq, Repr

/-- Model of TopItemsProcessor._get_top_items in api/services/top_items_processor.py
after the snapshot-store reads: latest and previous are the store results for the two
collection dates, defaultFetch is the get_top_items result used only when the latest
snapshot is empty (that branch returns the default list directly, modelled as a
distinct terminal state since those records carry no ranking columns), and
metadataFetch is the get_several_items_by_ids result used only when enrich_data is
set. Position changes are added only when the previous snapshot is non-empty. -/
def get_top_items_pipeline (latest previous : List SnapshotEntry)
    (defaultFetch : List SpotifyItem) (metadataFetch : List SpotifyItem)
    (enrich_data : Bool) : PipelineResult :=
  if latest.isEmpty then
    PipelineResult.defaultTop defaultFetch
  else
    let db_items :=
      if previous.isEmpty then latest.map dumpRecord
      else (add_position_changes_to_db_data latest previous).map mergedRecord
    if enrich_data then
      match enrich_db_data_with_spotify_data db_items metadataFetch with
      | Except.ok rows =>
          PipelineResult.assembled (create_top_items_from_data (rows.map (fun r => r.db)))
      | Except.error e => PipelineResult.fetchError e
    else
      PipelineResult.assembled (create_top_items_from_data db_items)

/-- Wall-clock instant in Europe/London: a calendar day index and the seconds past
local midnight. Python datetime arithmetic with timedelta on aware datetimes acts on
the wall-clock components, so subtracting a day decrements the day index, and
comparing two same-day aware datetimes compares their seconds of day (the 08:30
boundary never falls in a DST fold in London). -/
structure LocalDateTime where
  day : ℤ
  sec : ℕ
deriving DecidableEq, Repr

/-- Latest and previous collection dates, as day indices (the source formats them with
strftime, which is injective on dates). -/
structure CollectionDates where
  latest : ℤ
  previous : ℤ
deriving DecidableEq, Repr

/-- Model of get_collection_dates in api/services/top_items_processor.py (textually
identical in api/routers/data/routes/me.py): take the current Europe/London instant,
step back one day if it is strictly before the update time of that date, and return
that date together with the day before. -/
def get_collection_dates (update_hour update_minute : ℕ) (now : LocalDateTime) :
    CollectionDates :=
  let cutoverSec := (update_hour * 60 + update_minute) * 60
  let latestDay := if now.sec < cutoverSec then now.day - 1 else now.day
  { latest := latestDay, previous := latestDay - 1 }

/-- Seconds since the Unix epoch of a Europe/London wall-clock instant, where offset
is the UTC offset of the timezone at that instant (0 in winter, 3600 in summer), kept
as a parameter; models datetime.timestamp(). -/
def epochSeconds (offset : ℤ) (dt : LocalDateTime) : ℤ :=
  dt.day * 86400 + (dt.sec : ℤ) - offset

/-- Model of the expiry computation of MemoryStore.store_top_items in
api/services/memory_store.py, executed when the redis key is first created: it builds
the datetime of 08:30 Europe/London on the day AFTER the current one, takes
int(expiry_date.timestamp()) and passes that number of seconds as the RELATIVE
time-to-live of redis EXPIRE (timedelta(seconds=expiry_seconds)). The returned value
is the TTL duration in seconds that the key receives. -/
def store_top_items_ttl (offset : ℤ) (now : LocalDateTime) : ℤ :=
  epochSeconds offset { day := now.day + 1, sec := 30600 }

/-- Next daily cutover instant after (or at) now: today's 08:30 Europe/London if now
is before it, tomorrow's otherwise. -/
def next_cutover (now : LocalDateTime) : LocalDateTime :=
  if now.sec < 30600 then { day := now.day, sec := 30600 }
  else { day := now.day + 1, sec := 30600 }

/-- Modelled from the spec: the time-to-live the spec asks the cache write to use,
namely the time remaining from now until the next daily cutover instant, stated for
comparison with the TTL the code actually sets. -/
def spec_top_items_ttl (offset : ℤ) (now : LocalDateTime) : ℤ :=
  epochSeconds offset (next_cutover now) - epochSeconds offset now

/-! Lemmas about the left-merge computation shared by several statements. -/

theorem prevMatches_eq (previous : List SnapshotEntry) (l : SnapshotEntry) :
    prevMatches previous l =
      if previous.filter (fun p => p.id == l.id) = [] then [PdVal.nan]
      else (previous.filter (fun p => p.id == l.id)).map (fun p => PdVal.num p.metric) := by
  unfold prevMatches
  cases h : previous.filter (fun p => p.id == l.id) with
  | nil => simp [h]
  | cons a t => simp [h]

theorem prevMatches_ne_nil (previous : List SnapshotEntry) (l : SnapshotEntry) :
    prevMatches previous l ≠ [] := by
  rw [prevMatches_eq]
  split
  · simp
  · rename_i h
    simpa using h

theorem mem_add_position_changes (latest previous : List SnapshotEntry) (r : MergedRow) :
    r ∈ add_position_changes_to_db_data latest previous ↔
      ∃ l ∈ latest, ∃ mp ∈ prevMatches previous l, r = mkMergedRow l mp := by
  unfold add_position_changes_to_db_data
  simp only [List.mem_insertionSort, List.mem_flatMap, List.mem_map]
  constructor
  · rintro ⟨l, hl, mp, hmp, rfl⟩
    exact ⟨l, hl, mp, hmp, rfl⟩
  · rintro ⟨l, hl, mp, hmp, rfl⟩
    exact ⟨l, hl, mp, hmp, rfl⟩

theorem mkMergedRow_id (l : SnapshotEntry) (mp : PdVal) : (mkMergedRow l mp).id = l.id :=
  rfl

theorem prevMatches_length (previous : List SnapshotEntry) (l : SnapshotEntry) :
    (prevMatches previous l).length =
      max 1 (previous.countP (fun p => p.id == l.id)) := by
  rw [prevMatches_eq, List.countP_eq_length_filter]
  split
  · rename_i h
    simp [h]
  · rename_i h
    have hpos : 0 < (previous.filter (fun p => p.id == l.id)).length :=
      List.length_pos.mpr h
    simp [Nat.max_eq_right hpos]

theorem PdVal.sub_num_num (a b : ℚ) :
    PdVal.sub (PdVal.num a) (PdVal.num b) = PdVal.num (a - b) := by
  rw [PdVal.sub, ratSub_eq]

theorem PdVal.sub_nan_left (v : PdVal) : PdVal.sub PdVal.nan v = PdVal.nan := by
  cases v <;> rfl

theorem format_position_change_num (d : ℚ) :
    format_position_change (PdVal.num d) =
      if d < 0 then some PositionChange.down
      else if 0 < d then some PositionChange.up
      else none := by
  by_cases h1 : d < 0
  · simp [format_position_change, PdVal.ltZero, h1]
  · by_cases h2 : 0 < d
    · simp [format_position_change, PdVal.ltZero, PdVal.gtZero, h1, h2]
    · have h3 : d = 0 := le_antisymm (not_lt.1 h2) (not_lt.1 h1)
      simp [format_position_change, PdVal.ltZero, PdVal.gtZero, PdVal.eqZero, h1, h2, h3]

theorem format_position_change_nan :
    format_position_change PdVal.nan = some PositionChange.new := rfl

theorem format_position_change_num_ne_new (d : ℚ) :
    format_position_change (PdVal.num d) ≠ some PositionChange.new := by
  rw [format_position_change_num]
  split_ifs <;> simp

theorem classify_iff_comm (d : ℚ) :
    (if d < 0 then some PositionChange.down
     else if 0 < d then some PositionChange.up else none) =
      (if 0 < d then some PositionChange.up
       else if d < 0 then some PositionChange.down else none) := by
  rcases lt_trichotomy d 0 with h | h | h
  · simp [h, lt_asymm h]
  · simp [h]
  · simp [h, lt_asymm h]

theorem filter_eq_single_of_nodup {previous : List SnapshotEntry}
    (hp : (previous.map (fun e => e.id)).Nodup) {p : SnapshotEntry} (hmem : p ∈ previous)
    {i : String} (hid : p.id = i) :
    previous.filter (fun q => q.id == i) = [p] := by
  induction previous with
  | nil => cases hmem
  | cons q rest ih =>
    rw [List.map_cons, List.nodup_cons] at hp
    rcases List.mem_cons.1 hmem with rfl | hmem'
    · rw [List.filter_cons_of_pos (by simpa using hid)]
      have hrest : rest.filter (fun r => r.id == i) = [] := by
        rw [List.filter_eq_nil_iff]
        intro r hr hcon
        apply hp.1
        rw [beq_iff_eq] at hcon
        rw [hid, ← hcon]
        exact List.mem_map_of_mem _ hr
      rw [hrest]
    · have hqne : ¬ ((q.id == i) = true) := by
        rw [beq_iff_eq]
        intro hq
        apply hp.1
        rw [hq, ← hid]
        exact List.mem_map_of_mem _ hmem'
      rw [List.filter_cons_of_neg (by simpa using hqne)]
      exact ih hp.2 hmem'

/-- C2: for every pair of snapshots and every item of the latest snapshot, the
computation's output contains the item's row classified NEW when its identifier is
absent from the previous snapshot, and classified from the delta of previous metric
minus latest metric — UP when strictly positive, DOWN when strictly negative, no tag
when exactly zero — when a previous entry carries the same identifier; moreover, when
identifiers are unique in both snapshots (the ranking invariant), every output row
carrying the item's identifier is exactly that row. -/
theorem position_change_classification (latest previous : List SnapshotEntry) :
    ∀ l ∈ latest,
      ((∀ p ∈ previous, p.id ≠ l.id) →
        (⟨l.id, l.metric, PdVal.nan, some PositionChange.new⟩ : MergedRow) ∈
          add_position_changes_to_db_data latest previous)
      ∧ (∀ p ∈ previous, p.id = l.id →
          (⟨l.id, l.metric, PdVal.num p.metric,
            if 0 < p.metric - l.metric then some PositionChange.up
            else if p.metric - l.metric < 0 then some PositionChange.down
            else none⟩ : MergedRow) ∈
            add_position_changes_to_db_data latest previous)
      ∧ ((previous.map (fun e => e.id)).Nodup → (latest.map (fun e => e.id)).Nodup →
          ∀ r ∈ add_position_changes_to_db_data latest previous, r.id = l.id →
            ((∀ p ∈ previous, p.id ≠ l.id) →
              r = (⟨l.id, l.metric, PdVal.nan, some PositionChange.new⟩ : MergedRow))
            ∧ (∀ p ∈ previous, p.id = l.id →
              r = (⟨l.id, l.metric, PdVal.num p.metric,
                if 0 < p.metric - l.metric then some PositionChange.up
                else if p.metric - l.metric < 0 then some PositionChange.down
                else none⟩ : MergedRow))) := by
  intro l hl
  have hnewRow : mkMergedRow l PdVal.nan =
      (⟨l.id, l.metric, PdVal.nan, some PositionChange.new⟩ : MergedRow) := by
    rw [mkMergedRow, PdVal.sub_nan_left, format_position_change_nan]
  have hdeltaRow : ∀ p : SnapshotEntry, mkMergedRow l (PdVal.num p.metric) =
      (⟨l.id, l.metric, PdVal.num p.metric,
        if 0 < p.metric - l.metric then some PositionChange.up
        else if p.metric - l.metric < 0 then some PositionChange.down
        else none⟩ : MergedRow) := by
    intro p
    rw [mkMergedRow, PdVal.sub_num_num, format_position_change_num, classify_iff_comm]
  refine ⟨?_, ?_, ?_⟩
  · intro habs
    have hfil : previous.filter (fun q => q.id == l.id) = [] := by
      rw [List.filter_eq_nil_iff]
      intro p hp hcon
      exact habs p hp (by simpa using hcon)
    rw [← hnewRow]
    refine (mem_add_position_changes _ _ _).2 ⟨l, hl, PdVal.nan, ?_, rfl⟩
    rw [prevMatches_eq, if_pos hfil]
    simp
  · intro p hp hpid
    rw [← hdeltaRow p]
    refine (mem_add_position_changes _ _ _).2 ⟨l, hl, PdVal.num p.metric, ?_, rfl⟩
    have hpfil : p ∈ previous.filter (fun q => q.id == l.id) :=
      List.mem_filter.2 ⟨hp, by simpa using hpid⟩
    rw [prevMatches_eq, if_neg (by intro hnil; rw [hnil] at hpfil; cases hpfil)]
    exact List.mem_map_of_mem _ hpfil
  · intro hpn hln r hr hrid
    rcases (mem_add_position_changes _ _ r).1 hr with ⟨l', hl', mp, hmp, rfl⟩
    have hll : l' = l :=
      List.inj_on_of_nodup_map hln hl' hl (by simpa [mkMergedRow] using hrid)
    subst hll
    constructor
    · intro habs
      have hfil : previous.filter (fun q => q.id == l'.id) = [] := by
        rw [List.filter_eq_nil_iff]
        intro p hp hcon
        exact habs p hp (by simpa using hcon)
      rw [prevMatches_eq, if_pos hfil, List.mem_singleton] at hmp
      rw [hmp]
      exact hnewRow
    · intro p hp hpid
      have hfil : previous.filter (fun q => q.id == l'.id) = [p] :=
        filter_eq_single_of_nodup hpn hp hpid
      rw [prevMatches_eq, if_neg (by simp [hfil]), hfil] at hmp
      simp only [List.map_cons, List.map_nil, List.mem_singleton] at hmp
      rw [hmp]
      exact hdeltaRow p

theorem position_change_classification_witness :
    (⟨"a", 1, PdVal.num 2, some PositionChange.up⟩ : MergedRow) ∈
      add_position_changes_to_db_data [⟨"a", 1⟩, ⟨"c", 3⟩] [⟨"a", 2⟩]
    ∧ (⟨"c", 3, PdVal.nan, some PositionChange.new⟩ : MergedRow) ∈
      add_position_changes_to_db_data [⟨"a", 1⟩, ⟨"c", 3⟩] [⟨"a", 2⟩] := by
  constructor
  · have h := (position_change_classification [⟨"a", 1⟩, ⟨"c", 3⟩] [⟨"a", 2⟩]
      ⟨"a", 1⟩ (by decide)).2.1 ⟨"a", 2⟩ (by decide) rfl
    norm_num at h
    exact h
  · exact (position_change_classification [⟨"a", 1⟩, ⟨"c", 3⟩] [⟨"a", 2⟩]
      ⟨"c", 3⟩ (by decide)).1 (by decide)

/-- C10: the classification formatter is total over the modelled float values
including NaN — it returns DOWN exactly for the negative numbers, UP exactly for the
positive numbers, no tag exactly for zero, and NEW in exactly the remaining case,
namely NaN — and in the pipeline the NEW classification arises precisely for output
rows whose identifier is missing from the previous snapshot, since those are exactly
the rows whose delta is the NaN the left merge produces. -/
theorem format_position_change_total :
    (∀ v : PdVal, format_position_change v = some PositionChange.down ↔
      ∃ q, v = PdVal.num q ∧ q < 0)
    ∧ (∀ v : PdVal, format_position_change v = some PositionChange.up ↔
      ∃ q, v = PdVal.num q ∧ 0 < q)
    ∧ (∀ v : PdVal, format_position_change v = none ↔ v = PdVal.num 0)
    ∧ (∀ v : PdVal, format_position_change v = some PositionChange.new ↔ v = PdVal.nan)
    ∧ (∀ latest previous : List SnapshotEntry,
        ∀ r ∈ add_position_changes_to_db_data latest previous,
          (r.position_change = some PositionChange.new ↔
            r.id ∉ previous.map (fun e => e.id))) := by
  have hdown : ∀ v : PdVal, format_position_change v = some PositionChange.down ↔
      ∃ q, v = PdVal.num q ∧ q < 0 := by
    intro v
    cases v with
    | nan => simp [format_position_change_nan]
    | num q =>
      rw [format_position_change_num]
      rcases lt_trichotomy q 0 with h | h | h
      · simp [h]
      · subst h
        simp
      · simp [h, lt_asymm h]
  have hup : ∀ v : PdVal, format_position_change v = some PositionChange.up ↔
      ∃ q, v = PdVal.num q ∧ 0 < q := by
    intro v
    cases v with
    | nan => simp [format_position_change_nan]
    | num q =>
      rw [format_position_change_num]
      rcases lt_trichotomy q 0 with h | h | h
      · simp [h, lt_asymm h]
      · subst h
        simp
      · simp [h, lt_asymm h]
  have hzero : ∀ v : PdVal, format_position_change v = none ↔ v = PdVal.num 0 := by
    intro v
    cases v with
    | nan => simp [format_position_change_nan]
    | num q =>
      rw [format_position_change_num]
      rcases lt_trichotomy q 0 with h | h | h
      · simp [h, h.ne]
      · subst h
        simp
      · simp [h, lt_asymm h, h.ne.symm]
  have hnew : ∀ v : PdVal, format_position_change v = some PositionChange.new ↔
      v = PdVal.nan := by
    intro v
    cases v with
    | nan => simp [format_position_change_nan]
    | num q => simp [format_position_change_num_ne_new q]
  refine ⟨hdown, hup, hzero, hnew, ?_⟩
  intro latest previous r hr
  rcases (mem_add_position_changes _ _ r).1 hr with ⟨l, hl, mp, hmp, rfl⟩
  rw [prevMatches_eq] at hmp
  by_cases hfil : previous.filter (fun q => q.id == l.id) = []
  · rw [if_pos hfil, List.mem_singleton] at hmp
    subst hmp
    constructor
    · intro _ hid
      rcases List.mem_map.1 hid with ⟨p, hp, hpid⟩
      have hnp := (List.filter_eq_nil_iff.1 hfil) p hp
      rw [beq_iff_eq] at hnp
      exact hnp hpid
    · intro _
      show format_position_change (PdVal.sub PdVal.nan (PdVal.num l.metric)) =
        some PositionChange.new
      rw [PdVal.sub_nan_left, format_position_change_nan]
  · rw [if_neg hfil] at hmp
    rcases List.mem_map.1 hmp with ⟨p, hpfil, rfl⟩
    have hpmem := (List.mem_filter.1 hpfil).1
    have hpid : p.id = l.id := by simpa using (List.mem_filter.1 hpfil).2
    constructor
    · intro hnewpc
      exfalso
      have hfmt : format_position_change
          (PdVal.sub (PdVal.num p.metric) (PdVal.num l.metric)) =
          some PositionChange.new := hnewpc
      rw [PdVal.sub_num_num] at hfmt
      exact format_position_change_num_ne_new _ hfmt
    · intro habs
      refine absurd ?_ habs
      rw [mkMergedRow_id, ← hpid]
      exact List.mem_map_of_mem _ hpmem

theorem format_position_change_total_witness :
    ((⟨"a", 1, PdVal.nan, some PositionChange.new⟩ : MergedRow).position_change =
        some PositionChange.new ↔
      "a" ∉ ([⟨"b", 2⟩] : List SnapshotEntry).map (fun e => e.id)) :=
  format_position_change_total.2.2.2.2 [⟨"a", 1⟩] [⟨"b", 2⟩] _ (by decide)

/-- C3 (amended): for the processor's left-merge computation, the identifiers occurring
in the output are exactly the identifiers of the latest snapshot — items present only
in the previous snapshot are dropped and never appear (the router variant in me.py
does not satisfy this; see the counterexample). -/
theorem add_position_changes_ids (latest previous : List SnapshotEntry) (i : String) :
    i ∈ (add_position_changes_to_db_data latest previous).map (fun r => r.id) ↔
      i ∈ latest.map (fun e => e.id) := by
  simp only [List.mem_map]
  constructor
  · rintro ⟨r, hr, rfl⟩
    rcases (mem_add_position_changes _ _ r).1 hr with ⟨l, hl, mp, -, rfl⟩
    exact ⟨l, hl, rfl⟩
  · rintro ⟨l, hl, rfl⟩
    rcases List.exists_mem_of_ne_nil _ (prevMatches_ne_nil previous l) with ⟨mp, hmp⟩
    exact ⟨mkMergedRow l mp, (mem_add_position_changes _ _ _).2 ⟨l, hl, mp, hmp, rfl⟩, rfl⟩

/-- C3 (counterexample): the claim quantifies over the position-change computation, and
the router variant calculate_position_changes in me.py uses an outer merge: on a
latest snapshot holding only id a and a previous snapshot holding ids a and b, its
output contains id b, which is not an identifier of the latest snapshot. -/
theorem calculate_position_changes_keeps_previous_only_id :
    "b" ∈ (calculate_position_changes [⟨"a", 1⟩] [⟨"a", 1⟩, ⟨"b", 2⟩]).map
        (fun r => r.id)
      ∧ "b" ∉ ([⟨"a", 1⟩] : List SnapshotEntry).map (fun e => e.id) := by
  decide

/-- C9 (counterexample): on a latest snapshot with the duplicate identifier a at
positions 1 and 2 and a previous snapshot with a at position 5, the computation does
not fail: it returns a two-row result (each duplicate row joined to the match). -/
theorem duplicate_latest_ids_not_rejected :
    add_position_changes_to_db_data [⟨"a", 1⟩, ⟨"a", 2⟩] [⟨"a", 5⟩] =
      [⟨"a", 2, PdVal.num 5, some PositionChange.up⟩,
       ⟨"a", 1, PdVal.num 5, some PositionChange.up⟩] := by
  decide

/-- C9 (amended): duplicate identifiers in the latest snapshot are not detected; the
computation always produces a result, with one row for every pair of a latest row and
a matching previous row (and at least one row per latest row), rather than raising an
error on the violated uniqueness invariant. -/
theorem add_position_changes_length (latest previous : List SnapshotEntry) :
    (add_position_changes_to_db_data latest previous).length =
      (latest.map (fun l => max 1 (previous.countP (fun p => p.id == l.id)))).sum := by
  unfold add_position_changes_to_db_data
  rw [(List.perm_insertionSort _ _).length_eq, List.length_flatMap]
  congr 1
  apply List.map_congr_left
  intro l _
  simp only [Function.comp_apply]
  rw [List.length_map, prevMatches_length]

/-- C8: with the configured 08:30 cutover, the latest collection date is today's
Europe/London calendar date when the current instant is at or after 08:30 local time
and yesterday's otherwise, the previous date is exactly one day before the latest, and
at the exact cutover instant the latest date is today's. -/
theorem get_collection_dates_spec (now : LocalDateTime) :
    ((get_collection_dates 8 30 now).latest =
        if 30600 ≤ now.sec then now.day else now.day - 1)
    ∧ (get_collection_dates 8 30 now).previous = (get_collection_dates 8 30 now).latest - 1
    ∧ (now.sec = 30600 → (get_collection_dates 8 30 now).latest = now.day) := by
  unfold get_collection_dates
  norm_num
  by_cases hc : now.sec < 30600
  · have hc' : ¬ 30600 ≤ now.sec := by omega
    simp [hc, hc']
    omega
  · have hc' : 30600 ≤ now.sec := by omega
    simp [hc, hc']

theorem get_collection_dates_spec_witness :
    (get_collection_dates 8 30 ⟨20000, 30600⟩).latest = (20000 : ℤ) :=
  (get_collection_dates_spec ⟨20000, 30600⟩).2.2 rfl

/-! Lemmas about the enrichment step. -/

theorem dictLookup_mem {db_data : List TopRecord} {i : String} {r : TopRecord}
    (h : dictLookup db_data i = some r) : r ∈ db_data ∧ r.id = i := by
  refine ⟨?_, ?_⟩
  · have hm := List.mem_of_find?_eq_some h
    rwa [List.mem_reverse] at hm
  · have hp := List.find?_some h
    rwa [beq_iff_eq] at hp

theorem dictLookup_isSome_iff (db_data : List TopRecord) (i : String) :
    (dictLookup db_data i).isSome ↔ i ∈ db_data.map (fun r => r.id) := by
  unfold dictLookup
  rw [List.find?_isSome]
  constructor
  · rintro ⟨r, hr, hp⟩
    rw [List.mem_reverse] at hr
    rw [beq_iff_eq] at hp
    exact hp ▸ List.mem_map_of_mem _ hr
  · intro hmem
    rcases List.mem_map.1 hmem with ⟨r, hr, rfl⟩
    exact ⟨r, List.mem_reverse.2 hr, by simp⟩

theorem dictLookup_self {db_data : List TopRecord}
    (hn : (db_data.map (fun r => r.id)).Nodup) {r : TopRecord} (hr : r ∈ db_data) :
    dictLookup db_data r.id = some r := by
  have hs : (dictLookup db_data r.id).isSome :=
    (dictLookup_isSome_iff db_data r.id).2 (List.mem_map_of_mem _ hr)
  rcases Option.isSome_iff_exists.1 hs with ⟨r', hr'⟩
  rcases dictLookup_mem hr' with ⟨hr'mem, hr'id⟩
  have heq : r' = r := List.inj_on_of_nodup_map hn hr'mem hr hr'id
  rw [hr', heq]

theorem enrichLookup_ok (db_data : List TopRecord) (fetch : List SpotifyItem)
    (h : ∀ it ∈ fetch, (dictLookup db_data it.id).isSome) :
    enrichLookup db_data fetch =
      Except.ok (fetch.map (fun it =>
        { item := it, db := (dictLookup db_data it.id).getD ⟨"", 0, none⟩ })) := by
  induction fetch with
  | nil => rfl
  | cons it rest ih =>
    have hit := h it (List.mem_cons_self it rest)
    rcases Option.isSome_iff_exists.1 hit with ⟨r, hr⟩
    have hrest := ih (fun x hx => h x (List.mem_cons_of_mem _ hx))
    rw [enrichLookup, hr, hrest, List.map_cons]
    simp [hr]

theorem enrichLookup_ok_mem {db_data : List TopRecord} {fetch : List SpotifyItem}
    {rows : List EnrichedRecord} (h : enrichLookup db_data fetch = Except.ok rows) :
    ∀ e ∈ rows, e.db ∈ db_data := by
  induction fetch generalizing rows with
  | nil =>
    rw [enrichLookup] at h
    injection h with h
    subst h
    intro e he
    cases he
  | cons it rest ih =>
    rw [enrichLookup] at h
    cases hd : dictLookup db_data it.id with
    | none => rw [hd] at h; cases h
    | some r =>
      rw [hd] at h
      cases hrest : enrichLookup db_data rest with
      | error e => rw [hrest] at h; cases h
      | ok rows' =>
        rw [hrest] at h
        injection h with h
        subst h
        intro e he
        rcases List.mem_cons.1 he with rfl | he'
        · exact (dictLookup_mem hd).1
        · exact ih hrest e he'

/-- C1 (counterexample): with ranked input rows A at position 1 and B at position 2
and a batched fetch returning only A, the enrichment does not fail: it returns ok with
a one-element list, silently dropping B, although the input had two rows. -/
theorem enrich_accepts_partial_fetch :
    enrich_db_data_with_spotify_data
        [⟨"A", 1, none⟩, ⟨"B", 2, none⟩] [⟨"A", "Artist A"⟩] =
      Except.ok [⟨⟨"A", "Artist A"⟩, ⟨"A", 1, none⟩⟩]
    ∧ ([⟨"A", 1, none⟩, ⟨"B", 2, none⟩] : List TopRecord).length = 2 := by
  exact ⟨rfl, rfl⟩

/-- C1 (amended): when the batched fetch returns only identifiers that were requested,
the enrichment always succeeds — even when the fetch omits requested identifiers — and
its output has exactly one row per FETCHED item, so a partial fetch result yields a
silently truncated list rather than a LookupError-class failure. A KeyError can arise
only when the fetch returns an identifier that is not among the ranked input's ids. -/
theorem enrich_keeps_only_fetched (db_data : List TopRecord) (fetch : List SpotifyItem)
    (h : ∀ it ∈ fetch, it.id ∈ db_data.map (fun r => r.id)) :
    ∃ rows, enrich_db_data_with_spotify_data db_data fetch = Except.ok rows ∧
      rows.length = fetch.length := by
  have h' : ∀ it ∈ fetch, (dictLookup db_data it.id).isSome := fun it hit =>
    (dictLookup_isSome_iff db_data it.id).2 (h it hit)
  unfold enrich_db_data_with_spotify_data
  rw [enrichLookup_ok db_data fetch h']
  exact ⟨_, rfl, by rw [(List.perm_insertionSort _ _).length_eq, List.length_map]⟩

theorem enrich_keeps_only_fetched_witness :
    ∃ rows, enrich_db_data_with_spotify_data
        [⟨"A", 1, none⟩, ⟨"B", 2, none⟩] [⟨"A", "Artist A"⟩] = Except.ok rows ∧
      rows.length = 1 :=
  enrich_keeps_only_fetched [⟨"A", 1, none⟩, ⟨"B", 2, none⟩] [⟨"A", "Artist A"⟩]
    (by decide)

/-- C5: when the latest snapshot is non-empty and the previous snapshot is empty, the
orchestrator skips reconciliation — with enrichment off the response is assembled
directly from the latest snapshot dump — and every item of an assembled response has a
null position_change (no classification at all, in particular not NEW). -/
theorem latest_only_no_position_change (latest : List SnapshotEntry)
    (defaultFetch metadataFetch : List SpotifyItem) (hne : latest ≠ []) :
    (get_top_items_pipeline latest [] defaultFetch metadataFetch false =
        PipelineResult.assembled (create_top_items_from_data (latest.map dumpRecord)))
    ∧ (∀ (e : Bool) (items : List TopItem),
        get_top_items_pipeline latest [] defaultFetch metadataFetch e =
          PipelineResult.assembled items →
        ∀ x ∈ items, x.position_change = none) := by
  cases latest with
  | nil => exact absurd rfl hne
  | cons a t =>
    constructor
    · rfl
    · intro e items hres x hx
      cases e with
      | false =>
        have hres' : PipelineResult.assembled
            (create_top_items_from_data ((a :: t).map dumpRecord)) =
            PipelineResult.assembled items := hres
        injection hres' with hres'
        subst hres'
        rcases List.mem_map.1 hx with ⟨r, hr, rfl⟩
        rcases List.mem_map.1 hr with ⟨l, -, rfl⟩
        rfl
      | true =>
        have hres' : (match enrich_db_data_with_spotify_data
              ((a :: t).map dumpRecord) metadataFetch with
            | Except.ok rows =>
                PipelineResult.assembled (create_top_items_from_data
                  (rows.map (fun r => r.db)))
            | Except.error e => PipelineResult.fetchError e) =
            PipelineResult.assembled items := hres
        cases henr : enrich_db_data_with_spotify_data
            ((a :: t).map dumpRecord) metadataFetch with
        | error msg => rw [henr] at hres'; cases hres'
        | ok rows =>
          rw [henr] at hres'
          injection hres' with hres'
          subst hres'
          rcases List.mem_map.1 hx with ⟨r, hr, rfl⟩
          rcases List.mem_map.1 hr with ⟨er, her, rfl⟩
          unfold enrich_db_data_with_spotify_data at henr
          cases hlook : enrichLookup ((a :: t).map dumpRecord) metadataFetch with
          | error msg => rw [hlook] at henr; cases henr
          | ok rows0 =>
            rw [hlook] at henr
            injection henr with henr
            subst henr
            have her0 : er ∈ rows0 := by
              have := List.mem_insertionSort
                (fun x y : EnrichedRecord => x.db.metric ≤ y.db.metric)
                (l := rows0) (x := er)
              exact this.1 her
            have hdbmem := enrichLookup_ok_mem hlook er her0
            rcases List.mem_map.1 hdbmem with ⟨l, -, hl⟩
            show er.db.position_change = none
            rw [← hl]
            rfl

theorem latest_only_no_position_change_witness :
    get_top_items_pipeline [⟨"a", 1⟩] [] [] [] false =
      PipelineResult.assembled [⟨"a", 1, none⟩] := by
  have h := (latest_only_no_position_change [⟨"a", 1⟩] [] [] (by decide)).1
  simpa [create_top_items_from_data, dumpRecord] using h

theorem add_position_changes_sorted (latest previous : List SnapshotEntry) :
    (add_position_changes_to_db_data latest previous).Pairwise
      (fun a b => b.metric ≤ a.metric) := by
  unfold add_position_changes_to_db_data
  haveI : IsTotal MergedRow (fun a b => b.metric ≤ a.metric) :=
    ⟨fun a b => le_total b.metric a.metric⟩
  haveI : IsTrans MergedRow (fun a b => b.metric ≤ a.metric) :=
    ⟨fun _ _ _ hab hbc => le_trans hbc hab⟩
  exact List.sorted_insertionSort _ _

theorem enrich_ok_sorted {db_data : List TopRecord} {fetch : List SpotifyItem}
    {rows : List EnrichedRecord}
    (h : enrich_db_data_with_spotify_data db_data fetch = Except.ok rows) :
    rows.Pairwise (fun a b => a.db.metric ≤ b.db.metric) := by
  unfold enrich_db_data_with_spotify_data at h
  cases hlook : enrichLookup db_data fetch with
  | error msg => rw [hlook] at h; cases h
  | ok rows0 =>
    rw [hlook] at h
    injection h with h
    subst h
    haveI : IsTotal EnrichedRecord (fun a b => a.db.metric ≤ b.db.metric) :=
      ⟨fun a b => le_total a.db.metric b.db.metric⟩
    haveI : IsTrans EnrichedRecord (fun a b => a.db.metric ≤ b.db.metric) :=
      ⟨fun _ _ _ hab hbc => le_trans hab hbc⟩
    exact List.sorted_insertionSort _ _

/-- C6: every assembled response is sorted by the ranking metric in the
item-type-appropriate direction: with enrichment on (artists and tracks, whose
comparison metric is the position) the final list is ascending in the metric because
the enrichment step re-sorts ascending by position, and with enrichment off (genres
and emotions) the final list is descending in the comparison metric whenever both
snapshots are non-empty, because the position-change step sorts descending. -/
theorem assembled_response_sorted :
    (∀ (latest previous : List SnapshotEntry) (dF mF : List SpotifyItem)
        (items : List TopItem),
      get_top_items_pipeline latest previous dF mF true = PipelineResult.assembled items →
        items.Pairwise (fun a b => a.metric ≤ b.metric))
    ∧ (∀ (latest previous : List SnapshotEntry) (dF mF : List SpotifyItem)
        (items : List TopItem), previous ≠ [] →
      get_top_items_pipeline latest previous dF mF false = PipelineResult.assembled items →
        items.Pairwise (fun a b => b.metric ≤ a.metric)) := by
  constructor
  · intro latest previous dF mF items hres
    cases latest with
    | nil => cases hres
    | cons a t =>
      unfold get_top_items_pipeline at hres
      simp only [List.isEmpty_cons, Bool.false_eq_true, if_false, if_true] at hres
      generalize hdb : (if previous.isEmpty = true then (a :: t).map dumpRecord
        else (add_position_changes_to_db_data (a :: t) previous).map mergedRecord) =
        db_items at hres
      cases henr : enrich_db_data_with_spotify_data db_items mF with
      | error msg => rw [henr] at hres; cases hres
      | ok rows =>
        rw [henr] at hres
        injection hres with hres
        subst hres
        have hs := enrich_ok_sorted henr
        unfold create_top_items_from_data
        rw [List.pairwise_map, List.pairwise_map]
        exact hs
  · intro latest previous dF mF items hprev hres
    have hpe : previous.isEmpty = false := by
      cases previous with
      | nil => exact absurd rfl hprev
      | cons p q => rfl
    cases latest with
    | nil => cases hres
    | cons a t =>
      unfold get_top_items_pipeline at hres
      simp only [List.isEmpty_cons, Bool.false_eq_true, if_false, hpe, if_true] at hres
      injection hres with hres
      subst hres
      unfold create_top_items_from_data
      rw [List.pairwise_map, List.pairwise_map]
      exact add_position_changes_sorted (a :: t) previous

theorem assembled_response_sorted_witness :
    ([⟨"a", 1, none⟩, ⟨"b", 2, none⟩] : List TopItem).Pairwise
      (fun a b => a.metric ≤ b.metric)
    ∧ ([⟨"a", 1, some PositionChange.up⟩] : List TopItem).Pairwise
      (fun a b => b.metric ≤ a.metric) :=
  ⟨assembled_response_sorted.1 [⟨"a", 1⟩, ⟨"b", 2⟩] [] []
      [⟨"b", "nb"⟩, ⟨"a", "na"⟩] [⟨"a", 1, none⟩, ⟨"b", 2, none⟩] (by decide),
   assembled_response_sorted.2 [⟨"a", 1⟩] [⟨"a", 2⟩] [] []
      [⟨"a", 1, some PositionChange.up⟩] (by decide) (by decide)⟩

/-- C4: for every ranked input whose identifiers are unique and whose rows are listed
in rank order (strictly increasing comparison metric, the position), and every
metadata fetch whose returned ids are any permutation of the requested ids, the
enrichment succeeds, its output length equals the input length, and the output joins
each metadata record back to its row listed exactly in the input's rank order — the
fetch return order never affects output order or length. -/
theorem enrich_preserves_rank_order (db_data : List TopRecord)
    (fetch : List SpotifyItem)
    (hperm : List.Perm (fetch.map (fun it => it.id)) (db_data.map (fun r => r.id)))
    (hnodup : (db_data.map (fun r => r.id)).Nodup)
    (hsorted : db_data.Pairwise (fun a b => a.metric < b.metric)) :
    ∃ rows, enrich_db_data_with_spotify_data db_data fetch = Except.ok rows ∧
      rows.length = db_data.length ∧ rows.map (fun e => e.db) = db_data := by
  have h' : ∀ it ∈ fetch, (dictLookup db_data it.id).isSome := by
    intro it hit
    refine (dictLookup_isSome_iff db_data it.id).2 (hperm.mem_iff.1 ?_)
    exact List.mem_map_of_mem _ hit
  unfold enrich_db_data_with_spotify_data
  rw [enrichLookup_ok db_data fetch h']
  refine ⟨_, rfl, ?_, ?_⟩
  all_goals
    have hdb : db_data.map
        (fun r => (dictLookup db_data r.id).getD ⟨"", 0, none⟩) = db_data := by
      conv_rhs => rw [← List.map_id db_data]
      apply List.map_congr_left
      intro r hr
      rw [dictLookup_self hnodup hr]
      rfl
    have hmaps : (fetch.map (fun it =>
        ({ item := it, db := (dictLookup db_data it.id).getD ⟨"", 0, none⟩ }
          : EnrichedRecord))).map (fun e => e.db) =
        (fetch.map (fun it => it.id)).map
          (fun i => (dictLookup db_data i).getD ⟨"", 0, none⟩) := by
      rw [List.map_map, List.map_map]
      rfl
    have hpermdb : List.Perm ((fetch.map (fun it =>
        ({ item := it, db := (dictLookup db_data it.id).getD ⟨"", 0, none⟩ }
          : EnrichedRecord))).map (fun e => e.db)) db_data := by
      rw [hmaps]
      have hrhs : List.map (fun i => (dictLookup db_data i).getD ⟨"", 0, none⟩)
          (List.map (fun r => r.id) db_data) = db_data := by
        rw [List.map_map]
        exact hdb
      have hp := hperm.map (fun i => (dictLookup db_data i).getD ⟨"", 0, none⟩)
      rw [hrhs] at hp
      exact hp
  · rw [(List.perm_insertionSort _ _).length_eq, ← hpermdb.length_eq]
    simp
  · have hsortrows : ((fetch.map (fun it =>
        ({ item := it, db := (dictLookup db_data it.id).getD ⟨"", 0, none⟩ }
          : EnrichedRecord))).insertionSort
        (fun a b => a.db.metric ≤ b.db.metric)).Pairwise
        (fun a b => a.db.metric ≤ b.db.metric) := by
      haveI : IsTotal EnrichedRecord (fun a b => a.db.metric ≤ b.db.metric) :=
        ⟨fun a b => le_total a.db.metric b.db.metric⟩
      haveI : IsTrans EnrichedRecord (fun a b => a.db.metric ≤ b.db.metric) :=
        ⟨fun _ _ _ hab hbc => le_trans hab hbc⟩
      exact List.sorted_insertionSort _ _
    have hpermfinal : List.Perm (((fetch.map (fun it =>
        ({ item := it, db := (dictLookup db_data it.id).getD ⟨"", 0, none⟩ }
          : EnrichedRecord))).insertionSort
        (fun a b => a.db.metric ≤ b.db.metric)).map (fun e => e.db)) db_data :=
      ((List.perm_insertionSort _ _).map _).trans hpermdb
    have hnmetric : (db_data.map (fun r => r.metric)).Nodup :=
      List.pairwise_map.2 (hsorted.imp (fun h => ne_of_lt h))
    have hnmetric2 : ((((fetch.map (fun it =>
        ({ item := it, db := (dictLookup db_data it.id).getD ⟨"", 0, none⟩ }
          : EnrichedRecord))).insertionSort
        (fun a b => a.db.metric ≤ b.db.metric)).map (fun e => e.db)).map
          (fun r => r.metric)).Nodup :=
      (hpermfinal.map (fun r => r.metric)).symm.nodup hnmetric
    have hsortfinal : (((fetch.map (fun it =>
        ({ item := it, db := (dictLookup db_data it.id).getD ⟨"", 0, none⟩ }
          : EnrichedRecord))).insertionSort
        (fun a b => a.db.metric ≤ b.db.metric)).map (fun e => e.db)).Pairwise
        (fun a b => a.metric < b.metric) := by
      have hle : (((fetch.map (fun it =>
          ({ item := it, db := (dictLookup db_data it.id).getD ⟨"", 0, none⟩ }
            : EnrichedRecord))).insertionSort
          (fun a b => a.db.metric ≤ b.db.metric)).map (fun e => e.db)).Pairwise
          (fun a b => a.metric ≤ b.metric) := List.pairwise_map.2 hsortrows
      have hne : (((fetch.map (fun it =>
          ({ item := it, db := (dictLookup db_data it.id).getD ⟨"", 0, none⟩ }
            : EnrichedRecord))).insertionSort
          (fun a b => a.db.metric ≤ b.db.metric)).map (fun e => e.db)).Pairwise
          (fun a b => a.metric ≠ b.metric) := List.pairwise_map.1 hnmetric2
      exact (hle.and hne).imp (fun h => lt_of_le_of_ne h.1 h.2)
    haveI : IsAntisymm TopRecord (fun a b => a.metric < b.metric) :=
      ⟨fun a b h1 h2 => absurd h2 (lt_asymm h1)⟩
    exact List.eq_of_perm_of_sorted hpermfinal hsortfinal hsorted

theorem enrich_preserves_rank_order_witness :
    ∃ rows, enrich_db_data_with_spotify_data
        [⟨"A", 1, none⟩, ⟨"B", 2, none⟩] [⟨"B", "nb"⟩, ⟨"A", "na"⟩] =
          Except.ok rows ∧
      rows.length = 2 ∧
      rows.map (fun e => e.db) = [⟨"A", 1, none⟩, ⟨"B", 2, none⟩] :=
  enrich_preserves_rank_order [⟨"A", 1, none⟩, ⟨"B", 2, none⟩]
    [⟨"B", "nb"⟩, ⟨"A", "na"⟩] (by decide) (by decide) (by decide)

/-- C7: evaluation of the cache-write expiry at a concrete instant (Europe/London
wall-clock day 20200 at 10:00:00, UTC offset +01:00). The code passes
int(expiry_date.timestamp()) — the ABSOLUTE epoch timestamp of the following day's
08:30, here 1745393400 seconds, about 55 years — as the RELATIVE time-to-live of redis
EXPIRE, whereas the expiry the claim describes is the 81000 seconds remaining until
the next cutover instant; the two never agree here. -/
theorem store_top_items_ttl_is_absolute_timestamp :
    store_top_items_ttl 3600 ⟨20200, 36000⟩ = 1745393400
    ∧ spec_top_items_ttl 3600 ⟨20200, 36000⟩ = 81000
    ∧ store_top_items_ttl 3600 ⟨20200, 36000⟩ ≠ spec_top_items_ttl 3600 ⟨20200, 36000⟩ := by
  refine ⟨by decide, by decide, by decide⟩

end SpotifyThemes
